import Mathlib

/-!
Verification of the weapp-dev-mcp connection-lifecycle manager and page tools.

The repository exposes WeChat Mini Program DevTools automation as MCP tools.
The core component is the connection manager (`WeappAutomatorManager`): it
establishes, caches, validates, reconnects and tears down at most one
automation connection, and guards concurrent tool invocations.

The manager itself (`src/weappClient.ts`), the shared tool helpers
(`src/tools/common.ts`), the tool-list builder (`src/tools.ts`) and the
configuration module (`src/config.ts`) are not in the provided sources; only
their callers and tests are.  Definitions for those parts are modelled from
the specification (marked `Modelled from the spec:`).  The page tools
(`src/tools/page.ts`) and the HTTP bootstrap script are present and are
embedded directly from the source.
-/

set_option autoImplicit false

/-! ## Connection parameters

Modelled from the spec: `src/tools/common.ts` (missing from the sources)
exports `ensureConnectionParameters`, an optional override structure with
fields such as target endpoint/port, launch options, and a `reconnect` flag
that defaults to `false` when absent.  The test script
`scripts/validate-ensure-connection-parameters` checks that
`ensureConnectionParameters.parse(undefined)` yields a value whose
`reconnect` field is `false`. -/

/-- Raw (pre-parse) connection overrides: every field optional. -/
structure RawConnectionParams where
  port : Option Nat := none
  reconnect : Option Bool := none
  deriving Repr, DecidableEq

/-- Parsed connection parameters: `reconnect` has been defaulted. -/
structure ConnectionParams where
  port : Option Nat
  reconnect : Bool
  deriving Repr, DecidableEq

/-- Modelled from the spec: parsing of the optional override structure.
A missing override, or an override with `reconnect` unset, defaults
`reconnect` to `false`. -/
def ensureConnectionParametersParse (raw : Option RawConnectionParams) :
    ConnectionParams :=
  { port := raw.bind RawConnectionParams.port,
    reconnect := (raw.bind RawConnectionParams.reconnect).getD false }

/-! ## Connection manager state

Modelled from the spec: `src/weappClient.ts` (missing from the sources)
exports `WeappAutomatorManager`, which owns at most one live automation
connection.  Handles are identified by the index of the connect attempt
that produced them; `connectCount` counts underlying driver connect calls
(the call counter on the connect hook that the spec asks to verify with);
`live` is the list of currently live connection handles, maintained by the
lifecycle events (connect success installs the fresh handle after any
previous one has been discarded; close and dead-session invalidation
release it). -/

/-- The state of one `WeappAutomatorManager` instance. -/
structure ManagerState where
  handle : Option Nat := none
  connectCount : Nat := 0
  live : List Nat := []
  deriving Repr, DecidableEq

/-- The fresh manager state: no connection, no connect attempt made. -/
def initialManager : ManagerState := {}

/-- Connection-establishment failure, surfaced as a typed error. -/
inductive ConnErr where
  | connectionError
  deriving Repr, DecidableEq

/-- A driver behaviour: whether the n-th underlying connect attempt
succeeds.  On success the attempt yields the handle numbered by the
attempt index. -/
def DriverModel : Type := Nat → Bool

/-- Modelled from the spec: issue one underlying connect attempt.  The
connect call counter increases by one; on success the fresh handle is
cached and becomes the single live handle, on failure the state is reset
to disconnected. -/
def connectAttempt (drv : DriverModel) (s : ManagerState) :
    Except ConnErr Nat × ManagerState :=
  let n := s.connectCount
  if drv n then
    (Except.ok n, { handle := some n, connectCount := n + 1, live := [n] })
  else
    (Except.error ConnErr.connectionError,
      { handle := none, connectCount := n + 1, live := [] })

/-- Modelled from the spec: `ensureConnection(overrides?)`.  A fresh parse
of the overrides occurs per invocation.  When `reconnect` parses to
`false`, an existing cached handle is reused without any connect attempt,
and a connect attempt is made only when no handle is cached.  When
`reconnect` parses to `true`, any existing handle is discarded first and a
new connect attempt is issued unconditionally. -/
def ensureConnection (drv : DriverModel) (s : ManagerState)
    (overrides : Option RawConnectionParams) :
    Except ConnErr Nat × ManagerState :=
  let params := ensureConnectionParametersParse overrides
  if params.reconnect then
    connectAttempt drv { s with handle := none, live := [] }
  else
    match s.handle with
    | some h => (Except.ok h, s)
    | none => connectAttempt drv s

/-- Modelled from the spec: `close()` releases any live handle and resets
the manager to the disconnected state.  The connect-attempt counter is a
history counter and is untouched. -/
def close (s : ManagerState) : ManagerState :=
  { handle := none, connectCount := s.connectCount, live := [] }

/-- Outcome of one tool callback run against a page handle: success, or a
driver error which may or may not indicate a dead session. -/
inductive CallbackOutcome (A : Type) where
  | ok (a : A)
  | err (deadSession : Bool)
  deriving Repr, DecidableEq

/-- Failure taxonomy of a tool invocation, per the spec error design. -/
inductive ToolFailure where
  | connectionError
  | callbackError (deadSession : Bool)
  | validationError
  | timeoutError
  deriving Repr, DecidableEq

/-- Result of a `withPage` style invocation: the returned value or
failure, the manager state afterwards, and how many times the callback
was invoked. -/
structure WithPageResult (A : Type) where
  result : Except ToolFailure A
  state : ManagerState
  callbackCalls : Nat

/-- Modelled from the spec: `withPage(logger, overrides, callback)`
resolves a connection via `ensureConnection`, obtains the current page of
the resulting handle, and invokes the callback exactly once.  On a
callback error that indicates a dead session the cached handle is marked
invalid (released) and the error is rethrown; otherwise the error is
rethrown with the connection kept.  The callback is never retried and no
reconnect happens within the same call. -/
def withPage {A : Type} (drv : DriverModel) (s : ManagerState)
    (overrides : Option RawConnectionParams)
    (cb : Nat → CallbackOutcome A) : WithPageResult A :=
  match ensureConnection drv s overrides with
  | (Except.error _, s1) => ⟨Except.error ToolFailure.connectionError, s1, 0⟩
  | (Except.ok h, s1) =>
    match cb h with
    | CallbackOutcome.ok a => ⟨Except.ok a, s1, 1⟩
    | CallbackOutcome.err dead =>
      if dead then
        ⟨Except.error (ToolFailure.callbackError true),
          { s1 with handle := none, live := [] }, 1⟩
      else
        ⟨Except.error (ToolFailure.callbackError false), s1, 1⟩

/-- Manager states reachable from the fresh state through the public
operations. -/
inductive ReachableM : ManagerState → Prop where
  | init : ReachableM initialManager
  | ensure (s : ManagerState) (drv : DriverModel)
      (o : Option RawConnectionParams) :
      ReachableM s → ReachableM (ensureConnection drv s o).2
  | page {A : Type} (s : ManagerState) (drv : DriverModel)
      (o : Option RawConnectionParams) (cb : Nat → CallbackOutcome A) :
      ReachableM s → ReachableM (withPage drv s o cb).state
  | closed (s : ManagerState) : ReachableM s → ReachableM (close s)

/-- The manager invariant: any cached handle stems from a past connect
attempt, and the live-handle list is exactly the cached handle. -/
def ManagerInv (s : ManagerState) : Prop :=
  (∀ h, s.handle = some h → h < s.connectCount) ∧ s.live = s.handle.toList

lemma connectAttempt_inv (drv : DriverModel) (s : ManagerState) :
    ManagerInv (connectAttempt drv s).2 := by
  unfold connectAttempt ManagerInv
  by_cases hd : drv s.connectCount
  · simp [hd]
  · simp [hd]

lemma ensureConnection_inv (drv : DriverModel) (s : ManagerState)
    (o : Option RawConnectionParams) (hs : ManagerInv s) :
    ManagerInv (ensureConnection drv s o).2 := by
  unfold ensureConnection
  by_cases hr : (ensureConnectionParametersParse o).reconnect
  · simp only [hr, if_true]
    exact connectAttempt_inv drv _
  · simp only [hr, if_false]
    match hh : s.handle with
    | some h => simpa [hh] using hs
    | none => exact connectAttempt_inv drv s

lemma withPage_inv {A : Type} (drv : DriverModel) (s : ManagerState)
    (o : Option RawConnectionParams) (cb : Nat → CallbackOutcome A)
    (hs : ManagerInv s) : ManagerInv (withPage drv s o cb).state := by
  have h2 := ensureConnection_inv drv s o hs
  unfold withPage
  rcases he : ensureConnection drv s o with ⟨r, s1⟩
  rw [he] at h2
  cases r with
  | error e => simpa using h2
  | ok h =>
    cases hcb : cb h with
    | ok a =>
      simp only [hcb]
      simpa using h2
    | err dead =>
      simp only [hcb]
      by_cases hdead : dead
      · subst hdead
        refine ⟨?_, ?_⟩
        · intro h hh; simp at hh
        · simp
      · simp only [hdead, if_false]
        simpa using h2

lemma close_inv (s : ManagerState) : ManagerInv (close s) := by
  refine ⟨?_, ?_⟩
  · intro h hh; simp [close] at hh
  · simp [close]

/-! ## Cooperative concurrency model

Modelled from the spec: the process is single-threaded and cooperative;
the only suspension point relevant to connection establishment is the
await on the underlying connect call.  The manager keeps a pending-attempt
slot holding a single shared future: a caller that arrives while a connect
attempt is in flight attaches to it instead of starting a second attempt,
and the slot is cleared when the attempt settles (success or failure), at
which point every attached caller receives the same result.  A caller that
arrives while a handle is cached (and asks no reconnect) completes
immediately with that handle.  Both `ensureConnection` and the
connection-acquisition phase of `withPage` perform this same acquisition,
so a `call` event models either entry point. -/

/-- State of the concurrency model: cached handle, the waiter list of the
in-flight attempt (if any), counters of started and settled connect
attempts, the id for the next arriving caller, and the outcomes already
delivered to callers. -/
structure CState where
  handle : Option Nat := none
  pending : Option (List Nat) := none
  connectStarted : Nat := 0
  connectSettled : Nat := 0
  nextCaller : Nat := 0
  done : List (Nat × Except ConnErr Nat) := []
  deriving Repr

/-- Events of the cooperative scheduler: a caller invokes the acquisition
(no overrides), or the in-flight connect attempt settles. -/
inductive CEvent where
  | call
  | settle (ok : Bool)
  deriving Repr, DecidableEq

/-- The fresh concurrency-model state. -/
def initialC : CState := {}

/-- One cooperative step.  A caller finding a cached handle completes with
it; a caller finding an attempt in flight joins its waiter list; a caller
finding neither starts the single attempt.  A settle event resolves the
in-flight attempt, delivering the same result to every attached waiter and
clearing the pending slot; with no attempt in flight it is a no-op. -/
def cstep (s : CState) (e : CEvent) : CState :=
  match e with
  | CEvent.call =>
    let c := s.nextCaller
    match s.handle, s.pending with
    | some h, _ =>
      { s with nextCaller := c + 1, done := (c, Except.ok h) :: s.done }
    | none, some ws =>
      { s with nextCaller := c + 1, pending := some (c :: ws) }
    | none, none =>
      { s with nextCaller := c + 1, pending := some [c],
               connectStarted := s.connectStarted + 1 }
  | CEvent.settle ok =>
    match s.pending with
    | none => s
    | some ws =>
      let h := s.connectStarted - 1
      let r : Except ConnErr Nat :=
        if ok then Except.ok h else Except.error ConnErr.connectionError
      { s with pending := none,
               connectSettled := s.connectSettled + 1,
               handle := if ok then some h else none,
               done := ws.map (fun c => (c, r)) ++ s.done }

/-- Run a list of events from a state. -/
def crun (es : List CEvent) (s : CState) : CState := es.foldl cstep s

/-- At most one attempt in flight: the started and settled counters differ
by the pending slot. -/
def CInv (s : CState) : Prop :=
  (s.pending.isSome → s.connectStarted = s.connectSettled + 1) ∧
  (s.pending = none → s.connectStarted = s.connectSettled)

lemma cstep_inv (s : CState) (e : CEvent) (hs : CInv s) : CInv (cstep s e) := by
  obtain ⟨h1, h2⟩ := hs
  cases e with
  | call =>
    unfold cstep
    rcases hh : s.handle with _ | h
    · rcases hp : s.pending with _ | ws
      · refine ⟨?_, ?_⟩
        · intro _
          simp [h2 hp]
        · intro hcontra; simp at hcontra
      · refine ⟨?_, ?_⟩
        · intro _
          exact h1 (by simp [hp])
        · intro hcontra; simp at hcontra
    · exact ⟨fun hp => h1 hp, fun hp => h2 hp⟩
  | settle ok =>
    unfold cstep
    rcases hp : s.pending with _ | ws
    · exact ⟨fun hq => h1 hq, fun hq => h2 hq⟩
    · refine ⟨?_, ?_⟩
      · intro hcontra; simp at hcontra
      · intro _
        exact h1 (by simp [hp])

lemma crun_inv (es : List CEvent) (s : CState) (hs : CInv s) :
    CInv (crun es s) := by
  induction es generalizing s with
  | nil => simpa [crun] using hs
  | cons e es ih =>
    have h1 : crun (e :: es) s = crun es (cstep s e) := by
      simp [crun, List.foldl]
    rw [h1]
    exact ih (cstep s e) (cstep_inv s e hs)

/-- The state after n callers have arrived at a fresh manager, before the
single in-flight connect attempt settles. -/
lemma crun_calls (n : Nat) (hn : 1 ≤ n) :
    ∃ ws : List Nat, ws.length = n ∧
      crun (List.replicate n CEvent.call) initialC =
        { handle := none, pending := some ws, connectStarted := 1,
          connectSettled := 0, nextCaller := n, done := [] } := by
  induction n with
  | zero => omega
  | succ m ih =>
    by_cases hm : 1 ≤ m
    · obtain ⟨ws, hlen, hws⟩ := ih hm
      refine ⟨m :: ws, by simp [hlen], ?_⟩
      have hrep : List.replicate (m + 1) CEvent.call =
          List.replicate m CEvent.call ++ [CEvent.call] := by
        rw [← List.replicate_succ']
      rw [hrep]
      have hsplit : ∀ (l1 l2 : List CEvent) (t : CState),
          crun (l1 ++ l2) t = crun l2 (crun l1 t) := by
        intro l1 l2 t
        simp [crun, List.foldl_append]
      rw [hsplit, hws]
      simp [crun, cstep, hlen]
    · have hm0 : m = 0 := by omega
      subst hm0
      exact ⟨[0], rfl, by simp [crun, cstep, initialC]⟩

lemma manager_inv_of_reachable {s : ManagerState} (hs : ReachableM s) :
    ManagerInv s := by
  induction hs with
  | init =>
    refine ⟨?_, ?_⟩
    · intro h hh; simp [initialManager] at hh
    · simp [initialManager]
  | ensure s drv o hs ih => exact ensureConnection_inv drv s o ih
  | page s drv o cb hs ih => exact withPage_inv drv s o cb ih
  | closed s hs ih => exact close_inv s

/-! ## Page tools (`src/tools/page.ts`)

The zod parameter schemas of `page_getElement`, `page_getElements` and
`page_waitElement` extend `connectionContainerSchema` (an optional
`connection` override, modelled as a pass-through field since
`src/tools/common.ts` is missing) with a required `selector` of shape
`z.string().trim().min(1)` and optional extras.  Each `execute` first runs
`parameters.parse(rawArgs ?? {})` and only then calls
`manager.withPage(...)`. -/

/-- Whitespace trimming at both ends, on the character list of a
string. -/
def charTrim (cs : List Char) : List Char :=
  ((cs.dropWhile Char.isWhitespace).reverse.dropWhile
    Char.isWhitespace).reverse

/-- The check of `z.string().trim().min(1)`: trim, then require length at
least one; yields the trimmed string. -/
def parseTrimMin1 (s : String) : Option String :=
  let t := String.mk (charTrim s.data)
  if 1 ≤ t.length then some t else none

/-- Raw arguments of `page_getElement` before parsing. -/
structure RawGetElementArgs where
  selector : Option String := none
  innerSelector : Option String := none
  withWxml : Option Bool := none
  connection : Option RawConnectionParams := none

/-- Parsed arguments of `page_getElement`. -/
structure GetElementArgs where
  selector : String
  innerSelector : Option String
  withWxml : Bool
  connection : Option RawConnectionParams

/-- `getElementParameters.parse`: `selector` required, trimmed, nonempty;
`innerSelector` optional but trimmed nonempty when present; `withWxml`
defaults to `false`; the connection overrides pass through. -/
def getElementParametersParse (raw : RawGetElementArgs) :
    Except Unit GetElementArgs :=
  match raw.selector with
  | none => Except.error ()
  | some s =>
    match parseTrimMin1 s with
    | none => Except.error ()
    | some sel =>
      match raw.innerSelector with
      | none =>
        Except.ok { selector := sel, innerSelector := none,
                    withWxml := raw.withWxml.getD false,
                    connection := raw.connection }
      | some i =>
        match parseTrimMin1 i with
        | none => Except.error ()
        | some inner =>
          Except.ok { selector := sel, innerSelector := some inner,
                      withWxml := raw.withWxml.getD false,
                      connection := raw.connection }

/-- Raw arguments of `page_waitElement` before parsing. -/
structure RawWaitForElementArgs where
  selector : Option String := none
  connection : Option RawConnectionParams := none

/-- Parsed arguments of `page_waitElement`. -/
structure WaitForElementArgs where
  selector : String
  connection : Option RawConnectionParams

/-- `waitForElementParameters.parse`: `selector` required, trimmed,
nonempty; the connection overrides pass through. -/
def waitForElementParametersParse (raw : RawWaitForElementArgs) :
    Except Unit WaitForElementArgs :=
  match raw.selector with
  | none => Except.error ()
  | some s =>
    match parseTrimMin1 s with
    | none => Except.error ()
    | some sel =>
      Except.ok { selector := sel, connection := raw.connection }

/-- `createGetElementTool(manager).execute`: parse the raw arguments
(substituting an empty object for an absent payload) and only on success
enter `manager.withPage` with the parsed connection overrides.  The
callback body (element resolution and summarization) is kept abstract. -/
def createGetElementToolExecute (drv : DriverModel)
    (body : GetElementArgs → Nat → CallbackOutcome String)
    (s : ManagerState) (rawArgs : Option RawGetElementArgs) :
    WithPageResult String :=
  match getElementParametersParse (rawArgs.getD {}) with
  | Except.error _ => ⟨Except.error ToolFailure.validationError, s, 0⟩
  | Except.ok args => withPage drv s args.connection (body args)

/-- `createWaitForElementTool(manager).execute`: parse first, then enter
`manager.withPage`; the callback body (`page.waitFor`) is kept
abstract. -/
def createWaitForElementToolExecute (drv : DriverModel)
    (body : WaitForElementArgs → Nat → CallbackOutcome String)
    (s : ManagerState) (rawArgs : Option RawWaitForElementArgs) :
    WithPageResult String :=
  match waitForElementParametersParse (rawArgs.getD {}) with
  | Except.error _ => ⟨Except.error ToolFailure.validationError, s, 0⟩
  | Except.ok args => withPage drv s args.connection (body args)

/-- Resolution of an awaited `page.$$(selector)` call, as observed by the
`Array.isArray` check in the source: an array of elements, or some other
value. -/
inductive JsQueryResult (E : Type) where
  | arr (elems : List E)
  | nonArray

/-- The page object as used by `createGetElementsTool`: the `$$` member
may be absent (`typeof page.$$ !== "function"`). -/
structure PageObj (E : Type) where
  queryAll : Option (String → JsQueryResult E)

/-- One entry of the `elements` payload: the array index spread together
with the element summary. -/
structure IndexedSummary (S : Type) where
  index : Nat
  summary : S
  deriving Repr, DecidableEq

/-- The JSON payload of a successful `page_getElements` call. -/
structure GetElementsOutput (S : Type) where
  selector : String
  count : Nat
  elements : List (IndexedSummary S)
  deriving Repr, DecidableEq

/-- The callback body of `createGetElementsTool.execute` (lines 94-121 of
`src/tools/page.ts`): fail with a `UserError` when the page has no `$$`
function or when `page.$$(selector)` resolves to a non-array; otherwise
summarize every element with its index, in array order, and report the
selector and the element count.  `summarizeElement` lives in the missing
`src/tools/common.ts` and is kept abstract as a parameter. -/
def getElementsCallbackBody {E S : Type} (summarize : E → S)
    (page : PageObj E) (selector : String) :
    Except String (GetElementsOutput S) :=
  match page.queryAll with
  | none => Except.error "当前页面不支持查询元素数组。"
  | some q =>
    match q selector with
    | JsQueryResult.nonArray =>
      Except.error ("查询选择器 \"" ++ selector ++ "\" 失败。")
    | JsQueryResult.arr elems =>
      Except.ok
        { selector := selector,
          count := elems.length,
          elements := elems.enum.map
            (fun p => { index := p.1, summary := summarize p.2 }) }

/-! ## Tool registration and timeouts (`scripts/http-server`)

The bootstrap script maps every created tool through
`timeoutMs: tool.timeoutMs ?? globalTimeoutMs` before registering it, so a
tool keeps its own timeout when it defines one and inherits the global
default otherwise.  `createTools` and the global value live in the missing
`src/tools.ts` / `src/config.ts`, so the tool list and the default are
parameters here. -/

/-- A tool as registered with the serving framework. -/
structure RegisteredTool where
  name : String
  timeoutMs : Option Nat := none
  deriving Repr, DecidableEq

/-- The timeout-defaulting map of the bootstrap script. -/
def applyGlobalTimeout (globalTimeoutMs : Nat)
    (tools : List RegisteredTool) : List RegisteredTool :=
  tools.map (fun tool =>
    { tool with timeoutMs := some (tool.timeoutMs.getD globalTimeoutMs) })

/-- Modelled from the spec: the serving framework bounds a tool run by its
effective timeout.  A run within budget is returned unchanged; an
overlong run surfaces a timeout error to the caller while the manager
state stays exactly what the run itself (normal failure handling
included) produced. -/
def runWithTimeout {A : Type} (budget duration : Nat)
    (r : WithPageResult A) : WithPageResult A :=
  if duration ≤ budget then r
  else ⟨Except.error ToolFailure.timeoutError, r.state, r.callbackCalls⟩

/-! ## Shared lemmas about the manager operations -/

lemma parse_none_reconnect :
    (ensureConnectionParametersParse none).reconnect = false := rfl

lemma ensure_none_reuse (drv : DriverModel) (s : ManagerState) (h : Nat)
    (hlive : s.handle = some h) :
    ensureConnection drv s none = (Except.ok h, s) := by
  unfold ensureConnection
  simp [ensureConnectionParametersParse, hlive]

lemma connectAttempt_count (drv : DriverModel) (s : ManagerState) :
    (connectAttempt drv s).2.connectCount = s.connectCount + 1 := by
  unfold connectAttempt
  by_cases hd : drv s.connectCount <;> simp [hd]

lemma ensure_reconnect_eq (drv : DriverModel) (s : ManagerState)
    (o : Option RawConnectionParams)
    (hrec : (ensureConnectionParametersParse o).reconnect = true) :
    ensureConnection drv s o =
      connectAttempt drv { s with handle := none, live := [] } := by
  unfold ensureConnection
  simp [hrec]

lemma ensure_count_of_handle_none (drv : DriverModel) (s : ManagerState)
    (o : Option RawConnectionParams) (hh : s.handle = none) :
    (ensureConnection drv s o).2.connectCount = s.connectCount + 1 := by
  unfold ensureConnection
  by_cases hrec : (ensureConnectionParametersParse o).reconnect
  · simp only [hrec, if_true]
    exact connectAttempt_count drv _
  · simp only [hrec, if_false, hh]
    exact connectAttempt_count drv s

/-! ## Claims C1 to C7 -/

/-- C1: a call to `ensureConnection` with no overrides while a connection
is live returns the same cached handle and leaves the manager state, in
particular the underlying connect call counter, unchanged. -/
theorem claim_C1_reuse_live_handle (drv : DriverModel) (s : ManagerState)
    (h : Nat) (hlive : s.handle = some h) :
    ensureConnection drv s none = (Except.ok h, s) ∧
    (ensureConnection drv s none).2.connectCount = s.connectCount := by
  have hmain := ensure_none_reuse drv s h hlive
  exact ⟨hmain, by rw [hmain]⟩

/-- Witness for C1: a live manager state with handle 5 after 7 connect
attempts, under a driver that would fail any further attempt. -/
theorem claim_C1_witness :
    (⟨some 5, 7, [5]⟩ : ManagerState).handle = some 5 ∧
    ensureConnection (fun _ => false) ⟨some 5, 7, [5]⟩ none =
      (Except.ok 5, ⟨some 5, 7, [5]⟩) ∧
    (ensureConnection (fun _ => false) ⟨some 5, 7, [5]⟩ none).2.connectCount
      = 7 :=
  ⟨rfl, (claim_C1_reuse_live_handle (fun _ => false) ⟨some 5, 7, [5]⟩ 5 rfl).1,
    (claim_C1_reuse_live_handle (fun _ => false) ⟨some 5, 7, [5]⟩ 5 rfl).2⟩

/-- C2: a call with overrides carrying `reconnect = true` issues exactly
one new underlying connect attempt even while a connection is live; on
success the previously cached handle is discarded and replaced by the
newly established one (which is distinct from it), and on failure the
cache is left empty. -/
theorem claim_C2_reconnect_always_connects (drv : DriverModel)
    (s : ManagerState) (r : RawConnectionParams)
    (hrec : r.reconnect = some true) (hreach : ReachableM s) :
    (ensureConnection drv s (some r)).2.connectCount = s.connectCount + 1 ∧
    (drv s.connectCount = true →
      (ensureConnection drv s (some r)).1 = Except.ok s.connectCount ∧
      (ensureConnection drv s (some r)).2.handle = some s.connectCount ∧
      ∀ h, s.handle = some h → s.connectCount ≠ h) ∧
    (drv s.connectCount = false →
      (ensureConnection drv s (some r)).1
        = Except.error ConnErr.connectionError ∧
      (ensureConnection drv s (some r)).2.handle = none) := by
  have hparse : (ensureConnectionParametersParse (some r)).reconnect = true := by
    simp [ensureConnectionParametersParse, hrec]
  have heq := ensure_reconnect_eq drv s (some r) hparse
  have hinv := manager_inv_of_reachable hreach
  refine ⟨?_, ?_, ?_⟩
  · rw [heq]
    exact connectAttempt_count drv _
  · intro hd
    rw [heq]
    unfold connectAttempt
    refine ⟨by simp [hd], by simp [hd], ?_⟩
    intro h hh
    have hlt := hinv.1 h hh
    omega
  · intro hd
    rw [heq]
    unfold connectAttempt
    exact ⟨by simp [hd], by simp [hd]⟩

/-- Witness for C2: the reachable state after one successful connect,
hit with a reconnect override under a driver whose second attempt also
succeeds. -/
theorem claim_C2_witness :
    (ensureConnection (fun _ => true) ⟨some 0, 1, [0]⟩
        (some ⟨none, some true⟩)).2.connectCount = 1 + 1 ∧
    (ensureConnection (fun _ => true) ⟨some 0, 1, [0]⟩
        (some ⟨none, some true⟩)).1 = Except.ok 1 ∧
    (ensureConnection (fun _ => true) ⟨some 0, 1, [0]⟩
        (some ⟨none, some true⟩)).2.handle = some 1 ∧
    (1 : Nat) ≠ 0 :=
  ⟨(claim_C2_reconnect_always_connects (fun _ => true) ⟨some 0, 1, [0]⟩
      ⟨none, some true⟩ rfl
      (ReachableM.ensure initialManager (fun _ => true) none
        ReachableM.init)).1,
    ((claim_C2_reconnect_always_connects (fun _ => true) ⟨some 0, 1, [0]⟩
      ⟨none, some true⟩ rfl
      (ReachableM.ensure initialManager (fun _ => true) none
        ReachableM.init)).2.1 rfl).1,
    ((claim_C2_reconnect_always_connects (fun _ => true) ⟨some 0, 1, [0]⟩
      ⟨none, some true⟩ rfl
      (ReachableM.ensure initialManager (fun _ => true) none
        ReachableM.init)).2.1 rfl).2.1,
    ((claim_C2_reconnect_always_connects (fun _ => true) ⟨some 0, 1, [0]⟩
      ⟨none, some true⟩ rfl
      (ReachableM.ensure initialManager (fun _ => true) none
        ReachableM.init)).2.1 rfl).2.2 0 rfl⟩

/-- C4: when the callback run by `withPage` fails with a dead-session
driver error, the manager rethrows exactly that error after a single
callback invocation (no retry), invalidates the cached handle without
reconnecting within the same call, and the next `ensureConnection` call
issues a fresh connect attempt instead of reusing the invalidated
handle. -/
theorem claim_C4_dead_session_invalidates {A : Type}
    (drv drv2 : DriverModel) (s s1 : ManagerState)
    (o : Option RawConnectionParams) (cb : Nat → CallbackOutcome A) (h : Nat)
    (hens : ensureConnection drv s o = (Except.ok h, s1))
    (hcb : cb h = CallbackOutcome.err true) :
    withPage drv s o cb =
      ⟨Except.error (ToolFailure.callbackError true),
        { s1 with handle := none, live := [] }, 1⟩ ∧
    (withPage drv s o cb).state.connectCount = s1.connectCount ∧
    (ensureConnection drv2 (withPage drv s o cb).state none).2.connectCount
      = s1.connectCount + 1 := by
  have hwp : withPage drv s o cb =
      ⟨Except.error (ToolFailure.callbackError true),
        { s1 with handle := none, live := [] }, 1⟩ := by
    unfold withPage
    rw [hens]
    simp [hcb]
  refine ⟨hwp, by rw [hwp], ?_⟩
  rw [hwp]
  exact ensure_count_of_handle_none drv2 _ none rfl

/-- Witness for C4: a fresh manager connects successfully, the callback
reports a dead session, and the next call reconnects. -/
theorem claim_C4_witness :
    withPage (fun _ => true) initialManager none
        (fun _ => CallbackOutcome.err (A := Unit) true) =
      ⟨Except.error (ToolFailure.callbackError true), ⟨none, 1, []⟩, 1⟩ ∧
    (withPage (fun _ => true) initialManager none
        (fun _ => CallbackOutcome.err (A := Unit) true)).state.connectCount
      = 1 ∧
    (ensureConnection (fun _ => true)
        (withPage (fun _ => true) initialManager none
          (fun _ => CallbackOutcome.err (A := Unit) true)).state
        none).2.connectCount = 1 + 1 :=
  claim_C4_dead_session_invalidates (fun _ => true) (fun _ => true)
    initialManager ⟨some 0, 1, [0]⟩ none
    (fun _ => CallbackOutcome.err true) 0 rfl rfl

/-- C5: `ensureConnection` with an absent override behaves identically to
`ensureConnection` with an override whose `reconnect` field is `false`
(same result and same state transition from every manager state); both
reuse an existing connection, and parsing defaults `reconnect` to `false`
when no override is supplied. -/
theorem claim_C5_undefined_equiv_reconnect_false (drv : DriverModel)
    (s : ManagerState) :
    (ensureConnectionParametersParse none).reconnect = false ∧
    ensureConnection drv s none =
      ensureConnection drv s (some ⟨none, some false⟩) ∧
    (∀ h, s.handle = some h →
      ensureConnection drv s none = (Except.ok h, s) ∧
      ensureConnection drv s (some ⟨none, some false⟩) = (Except.ok h, s)) := by
  have hsame : ensureConnection drv s none =
      ensureConnection drv s (some ⟨none, some false⟩) := rfl
  refine ⟨rfl, hsame, ?_⟩
  intro h hh
  have hreuse := ensure_none_reuse drv s h hh
  exact ⟨hreuse, by rw [← hsame, hreuse]⟩

/-- Witness for C5 at a live manager state with handle 3. -/
theorem claim_C5_witness :
    (ensureConnectionParametersParse none).reconnect = false ∧
    ensureConnection (fun _ => true) ⟨some 3, 4, [3]⟩ none =
      ensureConnection (fun _ => true) ⟨some 3, 4, [3]⟩
        (some ⟨none, some false⟩) ∧
    ensureConnection (fun _ => true) ⟨some 3, 4, [3]⟩ none =
      (Except.ok 3, ⟨some 3, 4, [3]⟩) ∧
    ensureConnection (fun _ => true) ⟨some 3, 4, [3]⟩
        (some ⟨none, some false⟩) = (Except.ok 3, ⟨some 3, 4, [3]⟩) :=
  ⟨(claim_C5_undefined_equiv_reconnect_false (fun _ => true)
      ⟨some 3, 4, [3]⟩).1,
    (claim_C5_undefined_equiv_reconnect_false (fun _ => true)
      ⟨some 3, 4, [3]⟩).2.1,
    ((claim_C5_undefined_equiv_reconnect_false (fun _ => true)
      ⟨some 3, 4, [3]⟩).2.2 3 rfl).1,
    ((claim_C5_undefined_equiv_reconnect_false (fun _ => true)
      ⟨some 3, 4, [3]⟩).2.2 3 rfl).2⟩

/-- C6: `close` releases the live handle and resets the state to
disconnected, it is idempotent, and any `ensureConnection` call made
after it issues a fresh underlying connect attempt (the connect counter
moves), whatever the overrides. -/
theorem claim_C6_close_resets_then_fresh_connect (drv : DriverModel)
    (s : ManagerState) (o : Option RawConnectionParams) :
    (close s).handle = none ∧
    (close s).live = [] ∧
    close (close s) = close s ∧
    (ensureConnection drv (close s) o).2.connectCount
      = s.connectCount + 1 := by
  refine ⟨rfl, rfl, rfl, ?_⟩
  exact ensure_count_of_handle_none drv (close s) o rfl

/-- C7: in every reachable manager state at most one handle is live, and
an `ensureConnection` call made while a handle exists either returns that
same handle with the state untouched (default) or, under a reconnect
override, caches a replacement distinct from it. -/
theorem claim_C7_at_most_one_live_handle (s : ManagerState)
    (hreach : ReachableM s) :
    s.live.length ≤ 1 ∧
    (∀ drv h, s.handle = some h →
      ensureConnection drv s none = (Except.ok h, s) ∧
      ∀ r h2, r.reconnect = some true →
        (ensureConnection drv s (some r)).2.handle = some h2 → h2 ≠ h) := by
  have hinv := manager_inv_of_reachable hreach
  constructor
  · rw [hinv.2]
    cases s.handle <;> simp
  · intro drv h hh
    refine ⟨ensure_none_reuse drv s h hh, ?_⟩
    intro r h2 hrec hh2
    have hlt := hinv.1 h hh
    have hparse : (ensureConnectionParametersParse (some r)).reconnect = true := by
      simp [ensureConnectionParametersParse, hrec]
    rw [ensure_reconnect_eq drv s (some r) hparse] at hh2
    unfold connectAttempt at hh2
    by_cases hd : drv s.connectCount
    · simp [hd] at hh2
      omega
    · simp [hd] at hh2

/-- Witness for C7 at the reachable state after one successful connect. -/
theorem claim_C7_witness :
    (⟨some 0, 1, [0]⟩ : ManagerState).live.length ≤ 1 ∧
    ensureConnection (fun _ => true) ⟨some 0, 1, [0]⟩ none =
      (Except.ok 0, ⟨some 0, 1, [0]⟩) ∧
    ∀ h2, (ensureConnection (fun _ => true) ⟨some 0, 1, [0]⟩
        (some ⟨none, some true⟩)).2.handle = some h2 → h2 ≠ 0 :=
  ⟨(claim_C7_at_most_one_live_handle ⟨some 0, 1, [0]⟩
      (ReachableM.ensure initialManager (fun _ => true) none
        ReachableM.init)).1,
    ((claim_C7_at_most_one_live_handle ⟨some 0, 1, [0]⟩
      (ReachableM.ensure initialManager (fun _ => true) none
        ReachableM.init)).2 (fun _ => true) 0 rfl).1,
    fun h2 hh2 =>
      ((claim_C7_at_most_one_live_handle ⟨some 0, 1, [0]⟩
        (ReachableM.ensure initialManager (fun _ => true) none
          ReachableM.init)).2 (fun _ => true) 0 rfl).2
        ⟨none, some true⟩ h2 rfl hh2⟩

/-- C3: any set of concurrent acquisition calls issued against a fresh
manager before the first connect attempt settles results in exactly one
underlying connect call, and every caller receives the same resolved
handle (or, when the attempt fails, the same failure); moreover, along
every event trace at most one connection attempt is ever in flight at a
time. -/
theorem claim_C3_concurrent_calls_single_attempt (n : Nat) (b : Bool)
    (hn : 1 ≤ n) :
    ((crun (List.replicate n CEvent.call ++ [CEvent.settle b])
        initialC).connectStarted = 1 ∧
     (crun (List.replicate n CEvent.call ++ [CEvent.settle b])
        initialC).done.length = n ∧
     ∀ p ∈ (crun (List.replicate n CEvent.call ++ [CEvent.settle b])
        initialC).done,
       p.2 = if b then Except.ok 0
             else Except.error ConnErr.connectionError) ∧
    ∀ es : List CEvent,
      (crun es initialC).connectStarted
        ≤ (crun es initialC).connectSettled + 1 := by
  constructor
  · obtain ⟨ws, hlen, hws⟩ := crun_calls n hn
    have hsplit : crun (List.replicate n CEvent.call ++ [CEvent.settle b])
        initialC
        = crun [CEvent.settle b]
            (crun (List.replicate n CEvent.call) initialC) := by
      simp [crun, List.foldl_append]
    rw [hsplit, hws]
    cases b <;>
      refine ⟨by simp [crun, cstep], by simp [crun, cstep, hlen], ?_⟩ <;>
      · intro p hp
        simp [crun, cstep] at hp
        obtain ⟨c, hc, hpc⟩ := hp
        simp [← hpc]
  · intro es
    have hinv := crun_inv es initialC
      ⟨by intro hc; simp [initialC] at hc, fun _ => rfl⟩
    rcases hp : (crun es initialC).pending with _ | ws
    · rw [hinv.2 hp]
      omega
    · have h1 := hinv.1 (by simp [hp])
      omega

/-- Witness for C3: two concurrent callers on a fresh manager with a
successful settle, plus the in-flight bound on a concrete mixed trace. -/
theorem claim_C3_witness :
    ((crun (List.replicate 2 CEvent.call ++ [CEvent.settle true])
        initialC).connectStarted = 1 ∧
     (crun (List.replicate 2 CEvent.call ++ [CEvent.settle true])
        initialC).done.length = 2 ∧
     ∀ p ∈ (crun (List.replicate 2 CEvent.call ++ [CEvent.settle true])
        initialC).done,
       p.2 = if true then Except.ok 0
             else Except.error ConnErr.connectionError) ∧
    (crun [CEvent.call, CEvent.settle false, CEvent.call, CEvent.call]
        initialC).connectStarted
      ≤ (crun [CEvent.call, CEvent.settle false, CEvent.call, CEvent.call]
        initialC).connectSettled + 1 :=
  ⟨(claim_C3_concurrent_calls_single_attempt 2 true (by decide)).1,
    (claim_C3_concurrent_calls_single_attempt 2 true (by decide)).2
      [CEvent.call, CEvent.settle false, CEvent.call, CEvent.call]⟩

/-- C8: a tool invocation with malformed arguments (missing or, after
trimming, empty required selector) is rejected with a validation error by
the parse that precedes `withPage`; the manager state is returned
untouched, so no connect attempt and no driver call happen. -/
theorem claim_C8_validation_rejected_before_connection
    (drv : DriverModel) (s : ManagerState)
    (bodyG : GetElementArgs → Nat → CallbackOutcome String)
    (bodyW : WaitForElementArgs → Nat → CallbackOutcome String)
    (rawG : Option RawGetElementArgs) (rawW : Option RawWaitForElementArgs)
    (hG : getElementParametersParse (rawG.getD {}) = Except.error ())
    (hW : waitForElementParametersParse (rawW.getD {}) = Except.error ()) :
    createGetElementToolExecute drv bodyG s rawG =
      ⟨Except.error ToolFailure.validationError, s, 0⟩ ∧
    createWaitForElementToolExecute drv bodyW s rawW =
      ⟨Except.error ToolFailure.validationError, s, 0⟩ ∧
    (∀ raw : RawGetElementArgs,
      raw.selector = none ∨ raw.selector = some "" →
      getElementParametersParse raw = Except.error ()) ∧
    (∀ raw : RawWaitForElementArgs,
      raw.selector = none ∨ raw.selector = some "" →
      waitForElementParametersParse raw = Except.error ()) := by
  refine ⟨?_, ?_, ?_, ?_⟩
  · unfold createGetElementToolExecute
    rw [hG]
  · unfold createWaitForElementToolExecute
    rw [hW]
  · rintro raw (hsel | hsel) <;>
      · unfold getElementParametersParse
        rw [hsel]
        try simp [show parseTrimMin1 "" = none from by decide]
  · rintro raw (hsel | hsel) <;>
      · unfold waitForElementParametersParse
        rw [hsel]
        try simp [show parseTrimMin1 "" = none from by decide]

/-- Witness for C8: an entirely absent argument payload (so the required
selector is missing) against a driver that would connect. -/
theorem claim_C8_witness :
    createGetElementToolExecute (fun _ => true)
        (fun _ _ => CallbackOutcome.ok "") initialManager none =
      ⟨Except.error ToolFailure.validationError, initialManager, 0⟩ ∧
    createWaitForElementToolExecute (fun _ => true)
        (fun _ _ => CallbackOutcome.ok "") initialManager none =
      ⟨Except.error ToolFailure.validationError, initialManager, 0⟩ :=
  ⟨(claim_C8_validation_rejected_before_connection (fun _ => true)
      initialManager (fun _ _ => CallbackOutcome.ok "")
      (fun _ _ => CallbackOutcome.ok "") none none rfl rfl).1,
    (claim_C8_validation_rejected_before_connection (fun _ => true)
      initialManager (fun _ _ => CallbackOutcome.ok "")
      (fun _ _ => CallbackOutcome.ok "") none none rfl rfl).2.1⟩

/-- C9: the registration map gives every tool an effective timeout equal
to its own `timeoutMs` when defined and to the global default otherwise;
a run that exceeds its budget surfaces a timeout error to the caller
while the manager state stays exactly what the run itself produced. -/
theorem claim_C9_timeout_default_and_surfacing {A : Type} (g : Nat)
    (tools : List RegisteredTool) (budget duration : Nat)
    (r : WithPageResult A) (hexceed : budget < duration) :
    (∀ i : Nat, (applyGlobalTimeout g tools)[i]? =
      (tools[i]?).map (fun t =>
        { t with timeoutMs := some (t.timeoutMs.getD g) })) ∧
    (runWithTimeout budget duration r).result
      = Except.error ToolFailure.timeoutError ∧
    (runWithTimeout budget duration r).state = r.state ∧
    ∀ budget2, duration ≤ budget2 →
      runWithTimeout budget2 duration r = r := by
  refine ⟨?_, ?_, ?_, ?_⟩
  · intro i
    simp [applyGlobalTimeout]
  · unfold runWithTimeout
    simp [Nat.not_le.mpr hexceed]
  · unfold runWithTimeout
    simp [Nat.not_le.mpr hexceed]
  · intro budget2 hwithin
    unfold runWithTimeout
    simp [hwithin]

/-- Witness for C9: one tool with its own timeout and one without, a
budget of 5 exceeded by a duration of 6. -/
theorem claim_C9_witness :
    (applyGlobalTimeout 10 [⟨"page_getElement", some 3⟩,
        ⟨"page_waitElement", none⟩])[0]?
      = some ⟨"page_getElement", some 3⟩ ∧
    (applyGlobalTimeout 10 [⟨"page_getElement", some 3⟩,
        ⟨"page_waitElement", none⟩])[1]?
      = some ⟨"page_waitElement", some 10⟩ ∧
    (runWithTimeout 5 6
        (⟨Except.ok 0, initialManager, 1⟩ : WithPageResult Nat)).result
      = Except.error ToolFailure.timeoutError ∧
    (runWithTimeout 5 6
        (⟨Except.ok 0, initialManager, 1⟩ : WithPageResult Nat)).state
      = initialManager :=
  ⟨(claim_C9_timeout_default_and_surfacing 10
      [⟨"page_getElement", some 3⟩, ⟨"page_waitElement", none⟩] 5 6
      (⟨Except.ok 0, initialManager, 1⟩ : WithPageResult Nat)
      (by decide)).1 0,
    (claim_C9_timeout_default_and_surfacing 10
      [⟨"page_getElement", some 3⟩, ⟨"page_waitElement", none⟩] 5 6
      (⟨Except.ok 0, initialManager, 1⟩ : WithPageResult Nat)
      (by decide)).1 1,
    (claim_C9_timeout_default_and_surfacing 10
      [⟨"page_getElement", some 3⟩, ⟨"page_waitElement", none⟩] 5 6
      (⟨Except.ok 0, initialManager, 1⟩ : WithPageResult Nat)
      (by decide)).2.1,
    (claim_C9_timeout_default_and_surfacing 10
      [⟨"page_getElement", some 3⟩, ⟨"page_waitElement", none⟩] 5 6
      (⟨Except.ok 0, initialManager, 1⟩ : WithPageResult Nat)
      (by decide)).2.2.1⟩

/-- C10: `page_getElements` fails with a user-visible error when the page
has no element-array query function or when the query resolves to a
non-array, before any element is summarized; otherwise its payload
reports the selector, a count equal to the array length, and one summary
per element indexed in array order. -/
theorem claim_C10_getElements_errors_and_shape {E S : Type}
    (summarize : E → S) (page : PageObj E) (selector : String) :
    (page.queryAll = none →
      getElementsCallbackBody summarize page selector =
        Except.error "当前页面不支持查询元素数组。") ∧
    (∀ q, page.queryAll = some q →
      (q selector = JsQueryResult.nonArray →
        getElementsCallbackBody summarize page selector =
          Except.error ("查询选择器 \"" ++ selector ++ "\" 失败。")) ∧
      (∀ elems, q selector = JsQueryResult.arr elems →
        ∃ out, getElementsCallbackBody summarize page selector
            = Except.ok out ∧
          out.selector = selector ∧
          out.count = elems.length ∧
          out.elements.length = elems.length ∧
          ∀ i : Nat, out.elements[i]? =
            (elems[i]?).map (fun e => ⟨i, summarize e⟩))) := by
  constructor
  · intro hq
    unfold getElementsCallbackBody
    rw [hq]
  · intro q hq
    constructor
    · intro harr
      unfold getElementsCallbackBody
      rw [hq]
      simp [harr]
    · intro elems harr
      refine ⟨{ selector := selector, count := elems.length,
                elements := elems.enum.map
                  (fun p => ⟨p.1, summarize p.2⟩) }, ?_, rfl, rfl, ?_, ?_⟩
      · unfold getElementsCallbackBody
        rw [hq]
        simp [harr]
      · simp
      · intro i
        simp only [List.getElem?_map, List.getElem?_enum]
        cases elems[i]? <;> simp

/-- Witness for C10: a page whose query function returns the two-element
array of 4 and 7, summarized by adding one. -/
theorem claim_C10_witness :
    ∃ out, getElementsCallbackBody (fun e => e + 1)
        (⟨some (fun _ => JsQueryResult.arr [4, 7])⟩ : PageObj Nat) ".item"
        = Except.ok out ∧
      out.selector = ".item" ∧
      out.count = ([4, 7] : List Nat).length ∧
      out.elements.length = ([4, 7] : List Nat).length ∧
      ∀ i : Nat, out.elements[i]? =
        ((([4, 7] : List Nat))[i]?).map
          (fun e => ⟨i, (fun e => e + 1) e⟩) :=
  ((claim_C10_getElements_errors_and_shape (fun e => e + 1)
      (⟨some (fun _ => JsQueryResult.arr [4, 7])⟩ : PageObj Nat)
      ".item").2 (fun _ => JsQueryResult.arr [4, 7]) rfl).2 [4, 7] rfl
